import Mathlib

set_option maxRecDepth 4000

/-!
Shallow embedding of the `stats` package of the tetra_bot repository
(`internal/stats`): the `Result` record, the bounded `Manager` history
(`NewManager`, `Add`) and the windowed summary computation
(`GetLast24hSummary`), together with theorems settling the specification
claims about them.

Modelling conventions:
- `time.Time` instants and `time.Duration` values are nanosecond counts,
  embedded as `Int` (`t.After(u)` is `u < t`; Go's `int64` duration
  division truncates toward zero, which is `Int.tdiv`).
- `float64` throughput values are embedded as `ℚ`; the constant
  `math.MaxFloat64` is embedded exactly as `2^1024 - 2^971`.
- `error` fields are embedded as `Option String` (`none` = `nil`).
-/

/-- Nanoseconds in one `time.Millisecond`. -/
def nsPerMillisecond : Int := 1000000

/-- Nanoseconds in one `time.Hour`. -/
def nsPerHour : Int := 3600000000000

/-- Exact value of Go's `math.MaxFloat64` as a rational. -/
def maxFloat64 : ℚ := 2 ^ 1024 - 2 ^ 971

/-- Go's `math.MaxInt64`. -/
def maxInt64 : Int := 2 ^ 63 - 1

/-- The `stats.Result` struct: one speed-test measurement. -/
structure Result where
  time : Int
  download : ℚ
  upload : ℚ
  ping : Int
  bytesReceived : Nat
  bytesSent : Nat
  error : Option String
  alertSent : Bool
deriving DecidableEq

/-- The `stats.Summary` struct returned by `GetLast24hSummary`. -/
structure Summary where
  totalTests : Nat
  avgDownload : ℚ
  minDownload : ℚ
  maxDownload : ℚ
  avgUpload : ℚ
  minUpload : ℚ
  maxUpload : ℚ
  avgPing : Int
  minPing : Int
  maxPing : Int
  alertsCount : Nat
  lowSpeedEvents : List Result
deriving DecidableEq

/-- The Go zero value `Summary{}`. -/
def Summary.zero : Summary :=
  { totalTests := 0, avgDownload := 0, minDownload := 0, maxDownload := 0
    avgUpload := 0, minUpload := 0, maxUpload := 0
    avgPing := 0, minPing := 0, maxPing := 0
    alertsCount := 0, lowSpeedEvents := [] }

/-- The `stats.Manager` struct: the bounded history (mutex elided in the
pure embedding). -/
structure Manager where
  results : List Result
  maxSize : Int
deriving DecidableEq

/-- `stats.NewManager`: non-positive capacities fall back to the default
safe size 100. -/
def newManager (maxSize : Int) : Manager :=
  let size := if maxSize ≤ 0 then 100 else maxSize
  { results := [], maxSize := size }

/-- `(*Manager).Add`: append the record, then trim from the front so that
at most `maxSize` records (the latest ones) are kept. -/
def Manager.add (m : Manager) (r : Result) : Manager :=
  let rs := m.results ++ [r]
  if (rs.length : Int) > m.maxSize then
    { m with results := rs.drop (rs.length - m.maxSize.toNat) }
  else
    { m with results := rs }

/-- Folding a whole sequence of `Add` calls over a manager. -/
def Manager.addAll (m : Manager) (rs : List Result) : Manager :=
  rs.foldl Manager.add m

/-- The window-filtering step of `GetLast24hSummary` (the spec's
`Snapshot`): keep the records with `r.Time.After(cutoff)`, preserving
order. -/
def snapshotFilter (results : List Result) (cutoff : Int) : List Result :=
  results.filter (fun r => cutoff < r.time)

/-- Mutable state threaded through the record loop of
`GetLast24hSummary`: the partially built summary and the running sums. -/
structure LoopAcc where
  s : Summary
  sumDL : ℚ
  sumUL : ℚ
  sumPing : Int
deriving DecidableEq

/-- One iteration of the `for _, r := range filtered` loop of
`GetLast24hSummary`. A record with `Error != nil` is skipped entirely
(`continue`); otherwise the sums, extrema, alert count and low-speed
event list are updated. -/
def summaryStep (dlThreshold ulThreshold : ℚ) (acc : LoopAcc) (r : Result) : LoopAcc :=
  if r.error.isSome then acc
  else
    { s := { acc.s with
        minDownload := if r.download < acc.s.minDownload then r.download else acc.s.minDownload
        maxDownload := if acc.s.maxDownload < r.download then r.download else acc.s.maxDownload
        minUpload := if r.upload < acc.s.minUpload then r.upload else acc.s.minUpload
        maxUpload := if acc.s.maxUpload < r.upload then r.upload else acc.s.maxUpload
        minPing := if r.ping < acc.s.minPing then r.ping else acc.s.minPing
        maxPing := if acc.s.maxPing < r.ping then r.ping else acc.s.maxPing
        alertsCount := if r.alertSent then acc.s.alertsCount + 1 else acc.s.alertsCount
        lowSpeedEvents :=
          if r.download < dlThreshold ∨ r.upload < ulThreshold then
            acc.s.lowSpeedEvents ++ [r]
          else acc.s.lowSpeedEvents }
      sumDL := acc.sumDL + r.download
      sumUL := acc.sumUL + r.upload
      sumPing := acc.sumPing + r.ping }

/-- The 24-hour window of a manager's history at reference time `now`:
records with `Time` after `now.Add(-24 * time.Hour)`. -/
def windowOf (m : Manager) (now : Int) : List Result :=
  snapshotFilter m.results (now - 24 * nsPerHour)

/-- `(*Manager).GetLast24hSummary`: filter to the last 24 hours, return
the zero summary on an empty window, otherwise run the record loop and
finish with the average computations (division only when at least one
valid record exists; otherwise the sentinel minima are reset to zero). -/
def getLast24hSummary (m : Manager) (now : Int) (dlThreshold ulThreshold : ℚ) : Summary :=
  let filtered := windowOf m now
  if filtered.length = 0 then Summary.zero
  else
    let init : LoopAcc :=
      { s := { Summary.zero with
          totalTests := filtered.length
          minDownload := maxFloat64
          minUpload := maxFloat64
          minPing := maxInt64 }
        sumDL := 0, sumUL := 0, sumPing := 0 }
    let acc := filtered.foldl (summaryStep dlThreshold ulThreshold) init
    let validTests := (filtered.filter (fun r => r.error.isNone)).length
    if 0 < validTests then
      { acc.s with
        avgDownload := acc.sumDL / (validTests : ℚ)
        avgUpload := acc.sumUL / (validTests : ℚ)
        avgPing := Int.tdiv acc.sumPing (validTests : Int) }
    else
      { acc.s with minDownload := 0, minUpload := 0, minPing := 0 }

/-- `GetLast24hSummary` as a state transformer on the manager: the Go
method takes only a read lock and assigns to no field of the receiver,
so the post-state is the pre-state. -/
def getLast24hSummaryM (now : Int) (dlThreshold ulThreshold : ℚ) :
    StateM Manager Summary := fun m =>
  (getLast24hSummary m now dlThreshold ulThreshold, m)

/-- The low-speed test applied to a record inside the loop:
`r.Download < dlThreshold || r.Upload < ulThreshold`. -/
def isLowSpeed (dlThreshold ulThreshold : ℚ) (r : Result) : Bool :=
  decide (r.download < dlThreshold) || decide (r.upload < ulThreshold)

/-! ### Lemmas about the record loop -/

/-- Fields of the summary never assigned inside the record loop stay at
their initial values. -/
lemma foldl_summaryStep_const (dl ul : ℚ) (l : List Result) (acc : LoopAcc) :
    (l.foldl (summaryStep dl ul) acc).s.totalTests = acc.s.totalTests ∧
    (l.foldl (summaryStep dl ul) acc).s.avgDownload = acc.s.avgDownload ∧
    (l.foldl (summaryStep dl ul) acc).s.avgUpload = acc.s.avgUpload ∧
    (l.foldl (summaryStep dl ul) acc).s.avgPing = acc.s.avgPing := by
  induction l generalizing acc with
  | nil => exact ⟨rfl, rfl, rfl, rfl⟩
  | cons r l ih =>
    have h := ih (summaryStep dl ul acc r)
    have hs : (summaryStep dl ul acc r).s.totalTests = acc.s.totalTests ∧
        (summaryStep dl ul acc r).s.avgDownload = acc.s.avgDownload ∧
        (summaryStep dl ul acc r).s.avgUpload = acc.s.avgUpload ∧
        (summaryStep dl ul acc r).s.avgPing = acc.s.avgPing := by
      by_cases he : r.error.isSome <;> simp [summaryStep, he]
    simpa [List.foldl_cons, hs.1, hs.2.1, hs.2.2.1, hs.2.2.2] using h

/-- The loop appends to `LowSpeedEvents` exactly the valid records that
pass the low-speed test, in order. -/
lemma foldl_summaryStep_lowSpeedEvents (dl ul : ℚ) (l : List Result) (acc : LoopAcc) :
    (l.foldl (summaryStep dl ul) acc).s.lowSpeedEvents
      = acc.s.lowSpeedEvents ++ l.filter (fun r => r.error.isNone && isLowSpeed dl ul r) := by
  induction l generalizing acc with
  | nil => simp
  | cons r l ih =>
    rw [List.foldl_cons, ih]
    cases herr : r.error with
    | some e => simp [summaryStep, herr, List.filter_cons]
    | none =>
      by_cases hl : r.download < dl ∨ r.upload < ul
      · simp [summaryStep, herr, hl, isLowSpeed, List.filter_cons]
      · push_neg at hl
        simp [summaryStep, herr, isLowSpeed, List.filter_cons, not_lt.mpr hl.1, not_lt.mpr hl.2]

/-- The loop counts `AlertSent` flags only on valid records. -/
lemma foldl_summaryStep_alertsCount (dl ul : ℚ) (l : List Result) (acc : LoopAcc) :
    (l.foldl (summaryStep dl ul) acc).s.alertsCount
      = acc.s.alertsCount + (l.filter (fun r => r.error.isNone && r.alertSent)).length := by
  induction l generalizing acc with
  | nil => simp
  | cons r l ih =>
    rw [List.foldl_cons, ih]
    cases herr : r.error with
    | some e => simp [summaryStep, herr, List.filter_cons]
    | none =>
      cases ha : r.alertSent <;> simp [summaryStep, herr, ha, List.filter_cons] <;> omega

/-- The running sums accumulate the metric values of the valid records. -/
lemma foldl_summaryStep_sums (dl ul : ℚ) (l : List Result) (acc : LoopAcc) :
    (l.foldl (summaryStep dl ul) acc).sumDL
      = acc.sumDL + ((l.filter (fun r => r.error.isNone)).map Result.download).sum ∧
    (l.foldl (summaryStep dl ul) acc).sumUL
      = acc.sumUL + ((l.filter (fun r => r.error.isNone)).map Result.upload).sum ∧
    (l.foldl (summaryStep dl ul) acc).sumPing
      = acc.sumPing + ((l.filter (fun r => r.error.isNone)).map Result.ping).sum := by
  induction l generalizing acc with
  | nil => simp
  | cons r l ih =>
    rw [List.foldl_cons]
    have h := ih (summaryStep dl ul acc r)
    cases herr : r.error with
    | some e =>
      have hstep : summaryStep dl ul acc r = acc := by simp [summaryStep, herr]
      simpa [hstep, List.filter_cons, herr] using h
    | none =>
      have hDL : (summaryStep dl ul acc r).sumDL = acc.sumDL + r.download := by
        simp [summaryStep, herr]
      have hUL : (summaryStep dl ul acc r).sumUL = acc.sumUL + r.upload := by
        simp [summaryStep, herr]
      have hP : (summaryStep dl ul acc r).sumPing = acc.sumPing + r.ping := by
        simp [summaryStep, herr]
      refine ⟨?_, ?_, ?_⟩
      · rw [h.1, hDL]; simp [List.filter_cons, herr]; ring
      · rw [h.2.1, hUL]; simp [List.filter_cons, herr]; ring
      · rw [h.2.2, hP]; simp [List.filter_cons, herr]; ring

/-- When every record in the list carries an error, the loop is the
identity on the accumulator. -/
lemma foldl_summaryStep_all_failed (dl ul : ℚ) (l : List Result) (acc : LoopAcc)
    (h : ∀ r ∈ l, r.error.isSome) : l.foldl (summaryStep dl ul) acc = acc := by
  induction l generalizing acc with
  | nil => rfl
  | cons r l ih =>
    have hr : r.error.isSome := h r (List.mem_cons_self r l)
    have hstep : summaryStep dl ul acc r = acc := by simp [summaryStep, hr]
    rw [List.foldl_cons, hstep]
    exact ih acc (fun x hx => h x (List.mem_cons_of_mem r hx))

/-- A list's length splits into its valid and failed record counts. -/
lemma length_filter_error_split (l : List Result) :
    (l.filter (fun r => r.error.isNone)).length
      + (l.filter (fun r => r.error.isSome)).length = l.length := by
  induction l with
  | nil => rfl
  | cons r l ih => cases herr : r.error <;> simp [List.filter_cons, herr] <;> omega

/-! ### Lemmas about `Add` -/

/-- `Add` never changes the capacity. -/
lemma Manager.add_maxSize (m : Manager) (r : Result) : (m.add r).maxSize = m.maxSize := by
  by_cases hc : m.maxSize < (m.results.length : Int) + 1 <;>
    simp [Manager.add, List.length_append, hc]

/-- Closed form of `Add` for non-negative capacities: append, then drop
from the front whatever exceeds the capacity. -/
lemma Manager.add_results (m : Manager) (r : Result) (h0 : 0 ≤ m.maxSize) :
    (m.add r).results = (m.results ++ [r]).drop (m.results.length + 1 - m.maxSize.toNat) := by
  by_cases hc : m.maxSize < (m.results.length : Int) + 1
  · simp [Manager.add, List.length_append, hc]
  · have hz : m.results.length + 1 - m.maxSize.toNat = 0 := by omega
    simp [Manager.add, List.length_append, hc, hz]

/-- `Add` keeps the history length within a non-negative capacity. -/
lemma Manager.add_length_le (m : Manager) (r : Result) (h0 : 0 ≤ m.maxSize)
    (h : m.results.length ≤ m.maxSize.toNat) :
    (m.add r).results.length ≤ m.maxSize.toNat := by
  rw [Manager.add_results m r h0]
  simp only [List.length_drop, List.length_append, List.length_cons, List.length_nil]
  omega

/-- `addAll` never changes the capacity. -/
lemma Manager.addAll_maxSize (rs : List Result) : ∀ (m : Manager),
    (m.addAll rs).maxSize = m.maxSize := by
  induction rs with
  | nil => intro m; rfl
  | cons r rs ih =>
    intro m
    calc (m.addAll (r :: rs)).maxSize = ((m.add r).addAll rs).maxSize := rfl
    _ = (m.add r).maxSize := ih (m.add r)
    _ = m.maxSize := Manager.add_maxSize m r

/-- Closed form of a whole sequence of `Add` calls: the history is the
concatenation with everything beyond the capacity dropped from the
front, i.e. only the most recent `maxSize` records survive. -/
lemma Manager.addAll_results (rs : List Result) : ∀ (m : Manager), 0 ≤ m.maxSize →
    m.results.length ≤ m.maxSize.toNat →
    (m.addAll rs).results
      = (m.results ++ rs).drop (m.results.length + rs.length - m.maxSize.toNat) := by
  induction rs with
  | nil =>
    intro m _ hlen
    simp [Manager.addAll, Nat.sub_eq_zero_of_le hlen]
  | cons r rs ih =>
    intro m h0 hlen
    have h0' : 0 ≤ (m.add r).maxSize := by rw [Manager.add_maxSize]; exact h0
    have hlen' : (m.add r).results.length ≤ (m.add r).maxSize.toNat := by
      rw [Manager.add_maxSize]; exact Manager.add_length_le m r h0 hlen
    have step : m.addAll (r :: rs) = (m.add r).addAll rs := rfl
    rw [step, ih (m.add r) h0' hlen', Manager.add_maxSize, Manager.add_results m r h0]
    have hk : m.results.length + 1 - m.maxSize.toNat ≤ (m.results ++ [r]).length := by
      simp [List.length_append]
    rw [← List.drop_append_of_le_length hk, List.drop_drop]
    simp only [List.length_drop, List.length_append, List.length_cons, List.length_nil,
      List.append_assoc, List.singleton_append]
    congr 1
    omega

/-! ### Concrete inputs used by counterexamples and witnesses -/

/-- A failed measurement inside the 24-hour window: `Error` set, zero
throughput, `AlertSent` set. -/
def failedResult : Result :=
  { time := 0, download := 0, upload := 0, ping := 0, bytesReceived := 0,
    bytesSent := 0, error := some "speedtest failed", alertSent := true }

/-- A manager whose only record is the failed one. -/
def failedManager : Manager := { results := [failedResult], maxSize := 10 }

/-- Reference time `T` of the test scenario. -/
def scenarioTime : Int := 100 * nsPerHour

/-- Scenario record at `T-1h`: download 100, upload 50, ping 20ms. -/
def scenarioR1 : Result :=
  { time := scenarioTime - 1 * nsPerHour, download := 100, upload := 50,
    ping := 20 * nsPerMillisecond, bytesReceived := 0, bytesSent := 0,
    error := none, alertSent := false }

/-- Scenario record at `T-2h`: download 50, upload 20, ping 40ms. -/
def scenarioR2 : Result :=
  { time := scenarioTime - 2 * nsPerHour, download := 50, upload := 20,
    ping := 40 * nsPerMillisecond, bytesReceived := 0, bytesSent := 0,
    error := none, alertSent := false }

/-- Scenario record at `T-25h` (outside the window): download 200,
upload 100. -/
def scenarioR3 : Result :=
  { time := scenarioTime - 25 * nsPerHour, download := 200, upload := 100,
    ping := 0, bytesReceived := 0, bytesSent := 0,
    error := none, alertSent := false }

/-- Scenario record at `T-30m`: download 10, upload 5, alert flag set. -/
def scenarioR4 : Result :=
  { time := scenarioTime - 30 * 60 * 1000 * nsPerMillisecond, download := 10,
    upload := 5, ping := 0, bytesReceived := 0, bytesSent := 0,
    error := none, alertSent := true }

/-- The scenario manager: capacity 10 with the four records added in
order. -/
def scenarioManager : Manager :=
  ((((newManager 10).add scenarioR1).add scenarioR2).add scenarioR3).add scenarioR4

/-- A manager holding one valid record, for hypothesis witnesses. -/
def validManager : Manager := { results := [scenarioR1], maxSize := 5 }

/-! ### Claim theorems -/

/-- Claim C1, counterexample: a failed record in the window whose zero
download is below the threshold is claimed to appear in
`LowSpeedEvents`, but the code's `continue` skips it: the filter over
all window records yields the record while the summary's list is
empty. -/
theorem lowSpeedEvents_includes_failed_refuted :
    (windowOf failedManager 1).filter (isLowSpeed 1 1) = [failedResult] ∧
    (getLast24hSummary failedManager 1 1 1).lowSpeedEvents = [] := by
  constructor <;> decide

/-- Claim C1, amended: `LowSpeedEvents` contains, in insertion order,
exactly the VALID (`Error == nil`) records of the 24-hour window whose
download or upload is below its threshold, and its length is the count
of such valid records; failed records are skipped by the loop's
`continue` before the low-speed test. -/
theorem getLast24hSummary_lowSpeedEvents_valid_filter (m : Manager) (now : Int) (dl ul : ℚ) :
    (getLast24hSummary m now dl ul).lowSpeedEvents
      = (windowOf m now).filter (fun r => r.error.isNone && isLowSpeed dl ul r) ∧
    (getLast24hSummary m now dl ul).lowSpeedEvents.length
      = ((windowOf m now).filter (fun r => r.error.isNone && isLowSpeed dl ul r)).length := by
  have key : (getLast24hSummary m now dl ul).lowSpeedEvents
      = (windowOf m now).filter (fun r => r.error.isNone && isLowSpeed dl ul r) := by
    simp only [getLast24hSummary]
    by_cases h0 : (windowOf m now).length = 0
    · have hnil : windowOf m now = [] := List.length_eq_zero.mp h0
      simp [h0, hnil, Summary.zero]
    · simp only [h0, if_false]
      by_cases hv : 0 < ((windowOf m now).filter (fun r => r.error.isNone)).length <;>
        simp [hv, foldl_summaryStep_lowSpeedEvents, Summary.zero]
  exact ⟨key, by rw [key]⟩

/-- Claim C2, counterexample: a cutoff strictly before the only record's
timestamp is claimed to produce an empty filtered sequence, but the
filter keeps records with `Time.After(cutoff)`, so the full history is
returned instead. -/
theorem snapshotFilter_cutoff_before_refuted :
    (-1 : Int) < failedResult.time ∧
    snapshotFilter [failedResult] (-1) ≠ [] := by
  constructor <;> decide

/-- Claim C2, amended (the claim's two outcomes are swapped): for a
non-empty history, filtering with a cutoff strictly before all record
timestamps returns the full history in order, and filtering with a
cutoff at or after all record timestamps returns the empty sequence. -/
theorem snapshotFilter_window_bounds (results : List Result) (cutoff : Int)
    (hne : results ≠ []) :
    (results.all (fun r => decide (cutoff < r.time)) = true →
      snapshotFilter results cutoff = results) ∧
    (results.all (fun r => decide (r.time ≤ cutoff)) = true →
      snapshotFilter results cutoff = []) := by
  refine ⟨fun hall => ?_, fun hall => ?_⟩
  · apply List.filter_eq_self.mpr
    intro a ha
    simpa using List.all_eq_true.mp hall a ha
  · apply List.filter_eq_nil_iff.mpr
    intro a ha
    have h := List.all_eq_true.mp hall a ha
    simp only [decide_eq_true_eq] at h ⊢
    omega

/-- Witness for the amended C2 at a concrete one-record history: cutoff
`-1` lies strictly before the record's timestamp `0`, so the full
history is returned; cutoff `5` lies after it, so the result is
empty. -/
theorem snapshotFilter_window_bounds_witness :
    snapshotFilter [failedResult] (-1) = [failedResult] ∧
    snapshotFilter [failedResult] 5 = [] := by
  constructor
  · exact (snapshotFilter_window_bounds [failedResult] (-1) (by decide)).1 (by decide)
  · exact (snapshotFilter_window_bounds [failedResult] 5 (by decide)).2 (by decide)

/-- Claim C3, counterexample: a failed record in the window with
`AlertSent` set is claimed to be counted in `AlertsCount`, but the
loop's `continue` skips failed records before the alert check: the
count over all window records is 1 while the summary reports 0. -/
theorem alertsCount_includes_failed_refuted :
    ((windowOf failedManager 1).filter (fun r => r.alertSent)).length = 1 ∧
    (getLast24hSummary failedManager 1 1 1).alertsCount = 0 := by
  constructor <;> decide

/-- Claim C3, amended: `AlertsCount` equals the number of VALID
(`Error == nil`) records in the 24-hour window whose `AlertSent` flag is
set; failed records never contribute, whatever their flag. -/
theorem getLast24hSummary_alertsCount_valid_only (m : Manager) (now : Int) (dl ul : ℚ) :
    (getLast24hSummary m now dl ul).alertsCount
      = ((windowOf m now).filter (fun r => r.error.isNone && r.alertSent)).length := by
  simp only [getLast24hSummary]
  by_cases h0 : (windowOf m now).length = 0
  · have hnil : windowOf m now = [] := List.length_eq_zero.mp h0
    simp [h0, hnil, Summary.zero]
  · simp only [h0, if_false]
    by_cases hv : 0 < ((windowOf m now).filter (fun r => r.error.isNone)).length <;>
      simp [hv, foldl_summaryStep_alertsCount, Summary.zero]

/-- Claim C4, confirmed: starting from `NewManager(N)` with `N > 0`,
after any sequence of `Add` calls the history is exactly the most
recent records in original order — in particular, when more than `N`
records were added it is exactly the last `N` — and its length never
exceeds `N`. -/
theorem addAll_keeps_last_capacity (n : Int) (rs : List Result) (hn : 0 < n) :
    ((rs.length : Int) > n →
      ((newManager n).addAll rs).results = rs.drop (rs.length - n.toNat)) ∧
    (((newManager n).addAll rs).results.length : Int) ≤ n := by
  have hms : (newManager n).maxSize = n := by
    simp [newManager, not_le.mpr hn]
  have hres : (newManager n).results = [] := by
    simp [newManager]
  have h := Manager.addAll_results rs (newManager n)
    (by rw [hms]; exact le_of_lt hn) (by rw [hres, hms]; exact Nat.zero_le _)
  rw [hres, hms] at h
  simp only [List.nil_append, List.length_nil, Nat.zero_add] at h
  refine ⟨fun _ => h, ?_⟩
  rw [h]
  simp only [List.length_drop]
  omega

/-- Witness for C4: capacity 2, three records added — the history is the
last two records and the length bound holds. -/
theorem addAll_keeps_last_capacity_witness :
    0 < (2 : Int) ∧
    ((([scenarioR1, scenarioR2, scenarioR3].length : Int) > 2 →
      ((newManager 2).addAll [scenarioR1, scenarioR2, scenarioR3]).results
        = [scenarioR1, scenarioR2, scenarioR3].drop
            ([scenarioR1, scenarioR2, scenarioR3].length - (2 : Int).toNat)) ∧
    (((newManager 2).addAll [scenarioR1, scenarioR2, scenarioR3]).results.length : Int) ≤ 2) :=
  ⟨by decide, addAll_keeps_last_capacity 2 [scenarioR1, scenarioR2, scenarioR3] (by decide)⟩

/-- Claim C5, confirmed: over a window with `k > 0` valid records and
`mf` failed records, `TotalTests` is `k + mf` and each average is the
sum over only the valid records divided by `k` (rational division for
throughput, truncating integer division for the ping duration). -/
theorem getLast24hSummary_totals_and_averages (m : Manager) (now : Int) (dl ul : ℚ)
    (k mf : Nat)
    (hk : ((windowOf m now).filter (fun r => r.error.isNone)).length = k)
    (hmf : ((windowOf m now).filter (fun r => r.error.isSome)).length = mf)
    (hk0 : 0 < k) :
    (getLast24hSummary m now dl ul).totalTests = k + mf ∧
    (getLast24hSummary m now dl ul).avgDownload
      = (((windowOf m now).filter (fun r => r.error.isNone)).map Result.download).sum / (k : ℚ) ∧
    (getLast24hSummary m now dl ul).avgUpload
      = (((windowOf m now).filter (fun r => r.error.isNone)).map Result.upload).sum / (k : ℚ) ∧
    (getLast24hSummary m now dl ul).avgPing
      = Int.tdiv (((windowOf m now).filter (fun r => r.error.isNone)).map Result.ping).sum (k : Int) := by
  have hsplit := length_filter_error_split (windowOf m now)
  rw [hk, hmf] at hsplit
  have h0 : ¬((windowOf m now).length = 0) := by omega
  have hv : 0 < ((windowOf m now).filter (fun r => r.error.isNone)).length := by
    rw [hk]; exact hk0
  have hsums := foldl_summaryStep_sums dl ul (windowOf m now)
  have hconst := foldl_summaryStep_const dl ul (windowOf m now)
  simp only [getLast24hSummary, h0, if_false, hv, if_true]
  refine ⟨?_, ?_, ?_, ?_⟩
  · simp [hconst, hsplit.symm]
  · simp [hsums, hk]
  · simp [hsums, hk]
  · simp [hsums, hk]

/-- Witness for C5: a one-record window with a single valid record
(`k = 1`, `mf = 0`). -/
theorem getLast24hSummary_totals_and_averages_witness :
    ((windowOf validManager scenarioTime).filter (fun r => r.error.isNone)).length = 1 ∧
    ((windowOf validManager scenarioTime).filter (fun r => r.error.isSome)).length = 0 ∧
    0 < 1 ∧
    ((getLast24hSummary validManager scenarioTime 80 100).totalTests = 1 + 0 ∧
    (getLast24hSummary validManager scenarioTime 80 100).avgDownload
      = (((windowOf validManager scenarioTime).filter (fun r => r.error.isNone)).map Result.download).sum / ((1 : Nat) : ℚ) ∧
    (getLast24hSummary validManager scenarioTime 80 100).avgUpload
      = (((windowOf validManager scenarioTime).filter (fun r => r.error.isNone)).map Result.upload).sum / ((1 : Nat) : ℚ) ∧
    (getLast24hSummary validManager scenarioTime 80 100).avgPing
      = Int.tdiv (((windowOf validManager scenarioTime).filter (fun r => r.error.isNone)).map Result.ping).sum ((1 : Nat) : Int)) :=
  ⟨by decide, by decide, by decide,
    getLast24hSummary_totals_and_averages validManager scenarioTime 80 100 1 0
      (by decide) (by decide) (by decide)⟩

/-- Claim C6, confirmed: a non-empty window containing only failed
records yields zero for min, max and average of all three metrics,
while `TotalTests` still counts every record of the window. -/
theorem getLast24hSummary_all_failed_zero (m : Manager) (now : Int) (dl ul : ℚ)
    (hne : windowOf m now ≠ [])
    (hfail : (windowOf m now).all (fun r => r.error.isSome) = true) :
    (getLast24hSummary m now dl ul).totalTests = (windowOf m now).length ∧
    (getLast24hSummary m now dl ul).avgDownload = 0 ∧
    (getLast24hSummary m now dl ul).minDownload = 0 ∧
    (getLast24hSummary m now dl ul).maxDownload = 0 ∧
    (getLast24hSummary m now dl ul).avgUpload = 0 ∧
    (getLast24hSummary m now dl ul).minUpload = 0 ∧
    (getLast24hSummary m now dl ul).maxUpload = 0 ∧
    (getLast24hSummary m now dl ul).avgPing = 0 ∧
    (getLast24hSummary m now dl ul).minPing = 0 ∧
    (getLast24hSummary m now dl ul).maxPing = 0 := by
  have hall : ∀ r ∈ windowOf m now, r.error.isSome :=
    fun r hr => List.all_eq_true.mp hfail r hr
  have hvz : (windowOf m now).filter (fun r => r.error.isNone) = [] := by
    apply List.filter_eq_nil_iff.mpr
    intro a ha
    have h1 := hall a ha
    cases herr : a.error with
    | none => rw [herr] at h1; exact absurd h1 (by simp)
    | some e => simp [herr]
  have h0 : ¬((windowOf m now).length = 0) :=
    fun hlen => hne (List.length_eq_zero.mp hlen)
  have hv : ¬(0 < ((windowOf m now).filter (fun r => r.error.isNone)).length) := by
    rw [hvz]; simp
  simp only [getLast24hSummary, h0, hv, if_false]
  rw [foldl_summaryStep_all_failed dl ul (windowOf m now) _ hall]
  simp [Summary.zero]

/-- Witness for C6: the window of the one-failed-record manager. -/
theorem getLast24hSummary_all_failed_zero_witness :
    windowOf failedManager 1 ≠ [] ∧
    (windowOf failedManager 1).all (fun r => r.error.isSome) = true ∧
    ((getLast24hSummary failedManager 1 1 1).totalTests = (windowOf failedManager 1).length ∧
    (getLast24hSummary failedManager 1 1 1).avgDownload = 0 ∧
    (getLast24hSummary failedManager 1 1 1).minDownload = 0 ∧
    (getLast24hSummary failedManager 1 1 1).maxDownload = 0 ∧
    (getLast24hSummary failedManager 1 1 1).avgUpload = 0 ∧
    (getLast24hSummary failedManager 1 1 1).minUpload = 0 ∧
    (getLast24hSummary failedManager 1 1 1).maxUpload = 0 ∧
    (getLast24hSummary failedManager 1 1 1).avgPing = 0 ∧
    (getLast24hSummary failedManager 1 1 1).minPing = 0 ∧
    (getLast24hSummary failedManager 1 1 1).maxPing = 0) :=
  ⟨by decide, by decide,
    getLast24hSummary_all_failed_zero failedManager 1 1 1 (by decide) (by decide)⟩

/-- Claim C7, confirmed: the concrete scenario — capacity 10, records at
`T-1h`, `T-2h`, `T-25h` (ignored) and `T-30m` — queried at `T` with
thresholds (80, 100) yields `TotalTests = 3`, `AlertsCount = 1`,
`AvgDownload = 160/3` (within 0.01 of 53.33), `MinDownload = 10` and
exactly 3 low-speed events. -/
theorem getLast24hSummary_concrete_scenario :
    (getLast24hSummary scenarioManager scenarioTime 80 100).totalTests = 3 ∧
    (getLast24hSummary scenarioManager scenarioTime 80 100).alertsCount = 1 ∧
    (getLast24hSummary scenarioManager scenarioTime 80 100).avgDownload = 160 / 3 ∧
    (getLast24hSummary scenarioManager scenarioTime 80 100).avgDownload - 5333 / 100 < 1 / 100 ∧
    -(1 / 100) < (getLast24hSummary scenarioManager scenarioTime 80 100).avgDownload - 5333 / 100 ∧
    (getLast24hSummary scenarioManager scenarioTime 80 100).minDownload = 10 ∧
    (getLast24hSummary scenarioManager scenarioTime 80 100).lowSpeedEvents.length = 3 := by
  norm_num [getLast24hSummary, windowOf, snapshotFilter, scenarioManager, newManager,
    Manager.add, scenarioR1, scenarioR2, scenarioR3, scenarioR4, scenarioTime,
    summaryStep, Summary.zero, maxFloat64, maxInt64, nsPerHour, nsPerMillisecond,
    List.filter, List.foldl]

/-- Claim C8, confirmed: a second `GetLast24hSummary` call with the same
arguments on the state left by a first call (no intervening `Add`)
returns the identical summary — the computation is a pure, deterministic
function of the unmodified history. -/
theorem getLast24hSummary_idempotent (m : Manager) (now : Int) (dl ul : ℚ) :
    ((getLast24hSummaryM now dl ul).run (((getLast24hSummaryM now dl ul).run m).2)).1
      = ((getLast24hSummaryM now dl ul).run m).1 :=
  rfl

/-- Claim C9, confirmed: for any `maxSize ≤ 0`, `NewManager(maxSize)`
behaves exactly like `NewManager(100)` under every subsequent `Add`
sequence, and every constructed manager has a positive capacity. -/
theorem newManager_nonpositive_default (n : Int) :
    (n ≤ 0 → ∀ rs : List Result, (newManager n).addAll rs = (newManager 100).addAll rs) ∧
    0 < (newManager n).maxSize := by
  constructor
  · intro hn rs
    have he : newManager n = newManager 100 := by
      simp [newManager, hn]
    rw [he]
  · by_cases hn : n ≤ 0
    · simp [newManager, hn]
    · simp [newManager, hn]; omega

/-- Witness for C9 at `maxSize = -3`. -/
theorem newManager_nonpositive_default_witness :
    (-3 : Int) ≤ 0 ∧
    (newManager (-3)).addAll [failedResult] = (newManager 100).addAll [failedResult] ∧
    0 < (newManager (-3)).maxSize :=
  ⟨by decide, (newManager_nonpositive_default (-3)).1 (by decide) [failedResult],
    (newManager_nonpositive_default (-3)).2⟩

/-- Claim C10, confirmed: `GetLast24hSummary` is read-only — the
manager state after the call (its record list and capacity) equals the
state before, and the returned value is the pure summary function of
that state. -/
theorem getLast24hSummary_readonly (m : Manager) (now : Int) (dl ul : ℚ) :
    ((getLast24hSummaryM now dl ul).run m).2 = m ∧
    ((getLast24hSummaryM now dl ul).run m).2.results = m.results ∧
    ((getLast24hSummaryM now dl ul).run m).2.maxSize = m.maxSize ∧
    ((getLast24hSummaryM now dl ul).run m).1 = getLast24hSummary m now dl ul :=
  ⟨rfl, rfl, rfl, rfl⟩
